import Mathlib

/-!
Verification of the Revenue Report Generator backend (src/src/index.js).

The embedding models JavaScript numbers as exact rationals, with an
explicit NaN (`none`); floating point rounding is idealised away, which is
harmless for the claims below since they are about the relationships
between computed values, not about rounding.  Outbound HTTP calls are
modelled by their outcomes (`Except Unit` results passed in as data).
-/

set_option maxHeartbeats 1000000

/-- JavaScript numeric value: `some q` is an ordinary finite number
(modelled exactly as a rational), `none` is NaN. -/
abbrev JsNum := Option ℚ

/-- JavaScript coercion `x || 0` applied to a number: NaN and 0 are both
falsy and give 0, every other number passes through, so on values this is
`Option.getD 0`. -/
def jsOr0 (v : JsNum) : ℚ := v.getD 0

/-- JavaScript `a + b` with `a` a finite number: NaN propagates. -/
def jsAdd (a : ℚ) (b : JsNum) : JsNum := b.map (fun x => a + x)

/-- JavaScript `a - b`: NaN propagates. -/
def jsSub (a b : JsNum) : JsNum :=
  match a, b with
  | some x, some y => some (x - y)
  | _, _ => none

/-- JavaScript `a / b`: NaN propagates.  Division by zero gives a
non-finite result in JS; it is modelled as `none` and is unreachable under
the positivity guards of the code paths that use this. -/
def jsDiv (a b : JsNum) : JsNum :=
  match a, b with
  | some x, some y => if y = 0 then none else some (x / y)
  | _, _ => none

/-- JavaScript `a * c` with `c` a finite number: NaN propagates. -/
def jsMul (a : JsNum) (c : ℚ) : JsNum := a.map (fun x => x * c)

/-- JavaScript comparison `a > 0`: false for NaN. -/
def jsPos (a : JsNum) : Bool :=
  match a with
  | some x => decide (0 < x)
  | none => false

/-- Observable content of a metafield value `v` as consumed by
`parseAdditionalCharges` / `parseActualTotal` (index.js lines 740-792):
`braceJson` is `some a` exactly when `v` is a string starting with a curly
brace, `JSON.parse(v)` succeeds, and `parsed.amount` is truthy, with
`a = Number(parsed.amount)`; `toNumber` is `Number(v)` (`none` = NaN);
`nums` lists `Number` applied to each match of the numeric regex
`[-+]?[0-9]*\.?[0-9]+` against `String(v)` (empty list when the regex
finds no match). -/
structure MValue where
  braceJson : Option JsNum
  toNumber : JsNum
  nums : List ℚ
  deriving DecidableEq

/-- Order metafield as returned by the GraphQL metafields query: a
(namespace, key) pair and a value.  Absent fields are `none`; the parse
functions apply the source's `|| ''` defaulting. -/
structure Metafield where
  nspace : Option String
  key : Option String
  value : MValue
  deriving DecidableEq

/-- Matching condition of index.js line 744:
`(ns === 'distacart' && key === 'additional_charges') || key === 'distacart.additional_charges'`. -/
def matchesAdditional (m : Metafield) : Bool :=
  let ns := m.nspace.getD ""
  let k := m.key.getD ""
  (ns == "distacart" && k == "additional_charges") || k == "distacart.additional_charges"

/-- Matching condition of index.js line 773 for
`actual_total_checkout_price`. -/
def matchesActual (m : Metafield) : Bool :=
  let ns := m.nspace.getD ""
  let k := m.key.getD ""
  (ns == "distacart" && k == "actual_total_checkout_price") || k == "distacart.actual_total_checkout_price"

/-- Embedding of `parseAdditionalCharges` (index.js lines 740-767).  For a
matching entry: return the JSON money amount when present and truthy;
else return `Number(v)` when it is not NaN; else return the sum
(`reduce((a, b) => a + b, 0)`) of all numeric substrings when the regex
matches; otherwise fall through and keep scanning.  Returns 0 when no
entry produces a value. -/
def parseAdditionalCharges : List Metafield → JsNum
  | [] => some 0
  | m :: rest =>
    if matchesAdditional m then
      match m.value.braceJson with
      | some a => a
      | none =>
        match m.value.toNumber with
        | some n => some n
        | none =>
          match m.value.nums with
          | [] => parseAdditionalCharges rest
          | q :: qs => some ((q :: qs).foldl (fun a b => a + b) 0)
    else parseAdditionalCharges rest

/-- Embedding of `parseActualTotal` (index.js lines 769-792).  For a
matching entry: return the JSON money amount when present and truthy;
otherwise `return Number.isNaN(num) ? 0 : num` — the first matching entry
always decides the result.  Returns 0 when no entry matches. -/
def parseActualTotal : List Metafield → JsNum
  | [] => some 0
  | m :: rest =>
    if matchesActual m then
      match m.value.braceJson with
      | some a => a
      | none =>
        match m.value.toNumber with
        | some n => some n
        | none => some 0
    else parseActualTotal rest

/-- Value a single matching entry yields inside the
`parseAdditionalCharges` loop body; `none` means the body falls through
to the next entry. -/
def resolveAdditionalValue (v : MValue) : Option JsNum :=
  match v.braceJson with
  | some a => some a
  | none =>
    match v.toNumber with
    | some n => some (some n)
    | none =>
      match v.nums with
      | [] => none
      | q :: qs => some (some ((q :: qs).foldl (fun a b => a + b) 0))

/-- Value a single matching entry yields inside the `parseActualTotal`
loop body (the body always returns). -/
def resolveActualValue (v : MValue) : JsNum :=
  match v.braceJson with
  | some a => a
  | none =>
    match v.toNumber with
    | some n => some n
    | none => some 0

/-- Modelled from the spec's words for claims C4 and C10: the value of a
matching metafield entry is resolved as a raw number when the value parses
as a number; else the amount field when it is a JSON object with an
amount field; otherwise a leading numeric substring extracted from the
free text (0 when there is none). -/
def claimValueResolution (v : MValue) : JsNum :=
  match v.toNumber with
  | some n => some n
  | none =>
    match v.braceJson with
    | some a => a
    | none =>
      match v.nums with
      | q :: _ => some q
      | [] => some 0

/-- Order line item as consumed by the line-item fallback (index.js lines
959-980 and 1031-1049).  Numeric fields hold the result of JS `Number(·)`
on the raw field (`none` = NaN, also covering an absent field). -/
structure LineItem where
  name : Option String
  price : JsNum
  quantity : JsNum
  fulfillment_status : Option String
  fulfillable_quantity : JsNum
  deriving DecidableEq

/-- Fulfillment line item node of the fulfillment GraphQL query: `quantity`
is `Number(node.quantity)`; `origTotal` is
`Number(node.originalTotalSet?.shopMoney?.amount || 0)` (so `some 0` when
the amount is absent, `none` when it is a non-numeric string). -/
structure FulfillmentLineItem where
  quantity : JsNum
  origTotal : JsNum
  deriving DecidableEq

/-- Fulfillment record: status string and the line item nodes;
`lineItems = none` models a falsy `fulfillmentLineItems?.edges`. -/
structure Fulfillment where
  status : Option String
  lineItems : Option (List FulfillmentLineItem)
  deriving DecidableEq

/-- Order customer: numeric identifier and optional email. -/
structure Customer where
  id : Nat
  email : Option String
  deriving DecidableEq

/-- UTC year and month of an order's `created_at` timestamp, the data that
`new Date(iso).toISOString().slice(0, 7)` exposes.  The bounds match the
four-digit-year ISO range that `toISOString` emits. -/
structure OrderDate where
  year : Nat
  month : Nat
  hy : year < 10000
  hm : month < 100
  deriving DecidableEq

/-- Upstream order, restricted to the fields the report pipeline consumes.
`total_price` is the upstream order total; the report handler never
requests it (it is absent from the `fields` parameter, index.js line 820)
and never reads it, which claim C1 makes precise. -/
structure Order where
  id : Nat
  name : Option String
  created_at : OrderDate
  customer : Option Customer
  line_items : List LineItem
  total_price : ℚ
  deriving DecidableEq

/-- Report row pushed into `rows` (index.js lines 1005-1017 and
1052-1064). -/
structure ReportRow where
  order_id : Nat
  order_number : Option String
  order_date : OrderDate
  customer_id : Option Nat
  customer_name : String
  customer_email : Option String
  line_sum : ℚ
  additional_charges : JsNum
  billing_amount : JsNum
  actual_spend : JsNum
  profit_margin : JsNum
  deriving DecidableEq

/-- Hardcoded customer lookup table (index.js lines 18-38), names only. -/
def customerInfo : List (Nat × String) :=
  [(8688425369879, "Auxia Team"), (8736318325015, "Baidu C200 Team"),
   (8718672560407, "Baidu Team"), (8721200316695, "Chai-Research Team"),
   (8940864995607, "Comulate Team"), (8721199399191, "Hattrick Capital Team"),
   (8704188973335, "Marwood Team"), (8688428843287, "Peloton Team"),
   (8786145509655, "Starting Gate Team"), (8685830766871, "Sully AI Team"),
   (8721200939287, "Uphonest Team"), (8688802627863, "Veery Team"),
   (8703720751383, "Workstream Team"), (8726904209687, "Workstream MP Team"),
   (8898937094423, "Workstream UTAH Team"), (9138324275479, "@3120 Team"),
   (9161889743127, "Llamaindex Team"), (9253797691671, "AYR Energy Team"),
   (9253770690839, "Lemon slice Team")]

/-- Embedding of `getCustomerName` (index.js lines 41-44); a null
customer id renders as the string "null" inside the template literal. -/
def getCustomerName (customerId : Option Nat) : String :=
  match customerId with
  | some i =>
    match customerInfo.lookup i with
    | some n => n
    | none => "Customer #" ++ toString i
  | none => "Customer #null"

/-- First-occurrence-only `String.replace('#', '')` of JS, followed by
trim, applied to the order name (index.js lines 879 and 1024). -/
def stripHashAndTrim (s : String) : String :=
  (String.mk (removeFirstHash s.data)).trim
where
  removeFirstHash : List Char → List Char
    | [] => []
    | c :: cs => if c = '#' then cs else c :: removeFirstHash cs

/-- Line sum over successful fulfillments (index.js lines 936-954): for
each fulfillment with status SUCCESS and truthy edges, for each node,
`quantity = Number(node.quantity) || 0`,
`price = Number(originalTotal) / quantity || 0`, and `price * quantity`
is accumulated when `quantity > 0 && price > 0`.  At `quantity = 0` the
JS division is non-finite and the guard rejects the node, so modelling
the price as 0 there is observationally equal. -/
def fulfillmentLineSum (fuls : List Fulfillment) : ℚ :=
  fuls.foldl
    (fun s f =>
      if f.status = some "SUCCESS" then
        match f.lineItems with
        | some nodes =>
          nodes.foldl
            (fun s2 node =>
              let quantity : ℚ := jsOr0 node.quantity
              let price : ℚ := if quantity = 0 then 0 else jsOr0 node.origTotal / quantity
              if 0 < quantity ∧ 0 < price then s2 + price * quantity else s2)
            s
        | none => s
      else s)
    0

/-- Line-item fallback sum (index.js lines 959-980, repeated verbatim at
1031-1049): skip items whose fulfillment status is removed, cancelled,
refunded or returned; for the rest, when
`fulfillable_qty < total_qty`, accumulate
`price * (total_qty - fulfillable_qty)`. -/
def lineItemFallbackSum (items : List LineItem) : ℚ :=
  items.foldl
    (fun s li =>
      if li.fulfillment_status = some "removed" ∨ li.fulfillment_status = some "cancelled" ∨
          li.fulfillment_status = some "refunded" ∨ li.fulfillment_status = some "returned" then
        s
      else
        let fulfillable_qty := jsOr0 li.fulfillable_quantity
        let total_qty := jsOr0 li.quantity
        if fulfillable_qty < total_qty then
          s + jsOr0 li.price * (total_qty - fulfillable_qty)
        else s)
    0

/-- One iteration of the enrichment loop (index.js lines 850-1065):
`mfRes` is the outcome of the GraphQL metafields fetch, `fulRes` of the
fulfillments fetch.  A metafields-fetch failure takes the outer catch
(lines 1021-1064); a fulfillments-fetch failure takes the inner fallback
(lines 955-981).  Exactly one row is produced either way. -/
def enrichOrder (o : Order) (mfRes : Except Unit (List Metafield))
    (fulRes : Except Unit (List Fulfillment)) : ReportRow :=
  let order_number : Option String :=
    match o.name with
    | some n => if n = "" then none else some (stripHashAndTrim n)
    | none => none
  let customer_email : Option String :=
    match o.customer with
    | some c => match c.email with
      | some e => if e = "" then none else some e
      | none => none
    | none => none
  let customer_id : Option Nat :=
    match o.customer with
    | some c => if c.id = 0 then none else some c.id
    | none => none
  match mfRes with
  | .ok mfs =>
    let line_sum : ℚ :=
      match fulRes with
      | .ok fuls => fulfillmentLineSum fuls
      | .error _ => lineItemFallbackSum o.line_items
    let additional := parseAdditionalCharges mfs
    let actual := parseActualTotal mfs
    let billing := jsAdd line_sum additional
    { order_id := o.id
      order_number := order_number
      order_date := o.created_at
      customer_id := customer_id
      customer_name := getCustomerName customer_id
      customer_email := customer_email
      line_sum := line_sum
      additional_charges := additional
      billing_amount := billing
      actual_spend := actual
      profit_margin :=
        if jsPos billing then jsMul (jsDiv (jsSub billing actual) billing) 100 else some 0 }
  | .error _ =>
    let line_sum := lineItemFallbackSum o.line_items
    { order_id := o.id
      order_number := order_number
      order_date := o.created_at
      customer_id := customer_id
      customer_name := getCustomerName customer_id
      customer_email := customer_email
      line_sum := line_sum
      additional_charges := some 0
      billing_amount := some line_sum
      actual_spend := some 0
      profit_margin := some 0 }

/-- Per-order enrichment inputs: the fetched order and the outcomes of its
two per-order upstream calls. -/
structure EnrichInput where
  ord : Order
  metafieldsResult : Except Unit (List Metafield)
  fulfillmentsResult : Except Unit (List Fulfillment)

/-- The `detail` list of the report: the enrichment loop produces exactly
one row per fetched order, on the normal path and on both fallback
paths. -/
def reportDetail (inputs : List EnrichInput) : List ReportRow :=
  inputs.map (fun i => enrichOrder i.ord i.metafieldsResult i.fulfillmentsResult)

/-- Decimal digit character of `n % 10`. -/
def digitChar10 (n : Nat) : Char := Char.ofNat (48 + n % 10)

/-- Embedding of `monthKey` (index.js line 1069):
`iso => new Date(iso).toISOString().slice(0, 7)`, the UTC year-month of
the date rendered as the seven characters YYYY-MM. -/
def monthKey (d : OrderDate) : String :=
  ⟨[digitChar10 (d.year / 1000), digitChar10 (d.year / 100), digitChar10 (d.year / 10),
    digitChar10 d.year, '-', digitChar10 (d.month / 10), digitChar10 d.month]⟩

/-- Customer key of a row (index.js line 1075):
`r.customer_email || String(r.customer_id || 'unknown')`, with JS
falsiness of the empty string and of the number 0 made explicit. -/
def customerKey (r : ReportRow) : String :=
  match r.customer_email with
  | some e => if e = "" then customerIdKey r else e
  | none => customerIdKey r
where
  customerIdKey (r : ReportRow) : String :=
    match r.customer_id with
    | some i => if i = 0 then "unknown" else toString i
    | none => "unknown"

/-- Modelled from the spec's words for claim C8: the customer key is the
customer's email if present, else their numeric identifier as text, else
the literal "unknown". -/
def claimCustomerKey (r : ReportRow) : String :=
  match r.customer_email with
  | some e => e
  | none =>
    match r.customer_id with
    | some i => toString i
    | none => "unknown"

/-- Grouping key of a row (index.js line 1076): `customerKey + '|' + month`. -/
def groupKey (r : ReportRow) : String :=
  customerKey r ++ "|" ++ monthKey r.order_date

/-- Accumulating group state (index.js lines 1079-1097); `order_numbers`
models the JS `Set` by an insertion-ordered duplicate-free list. -/
structure SummaryGroup where
  customer : String
  month : String
  orders : Nat
  amount : ℚ
  order_numbers : List String
  total_billing : ℚ
  total_actual : ℚ
  deriving DecidableEq

/-- Key under which a group is stored in the `groups` map. -/
def SummaryGroup.gkey (g : SummaryGroup) : String := g.customer ++ "|" ++ g.month

/-- Metric field selection (index.js line 1070) followed by the read
`Number(r[metricField] || 0)` of line 1093. -/
def rowMetric (metric : String) (r : ReportRow) : ℚ :=
  jsOr0 (if metric = "actual" then r.actual_spend else r.billing_amount)

/-- Fresh group for a row's key (index.js lines 1079-1088). -/
def emptyGroup (r : ReportRow) : SummaryGroup :=
  { customer := customerKey r
    month := monthKey r.order_date
    orders := 0
    amount := 0
    order_numbers := []
    total_billing := 0
    total_actual := 0 }

/-- JS `Set.add`: append when not already present. -/
def insertOrderNumber (s : String) (l : List String) : List String :=
  if s ∈ l then l else l ++ [s]

/-- Mutation of a group by one row (index.js lines 1091-1097). -/
def addRowToGroup (metric : String) (r : ReportRow) (g : SummaryGroup) : SummaryGroup :=
  { g with
    orders := g.orders + 1
    amount := g.amount + rowMetric metric r
    total_billing := g.total_billing + jsOr0 r.billing_amount
    total_actual := g.total_actual + jsOr0 r.actual_spend
    order_numbers :=
      match r.order_number with
      | some s => if s = "" then g.order_numbers else insertOrderNumber s g.order_numbers
      | none => g.order_numbers }

/-- One step of the grouping loop: the insertion-ordered map `groups` is
modelled as an association list; the first group whose key matches the
row's key is updated, and a fresh group is appended when none matches. -/
def updateGroups (metric : String) (r : ReportRow) : List SummaryGroup → List SummaryGroup
  | [] => [addRowToGroup metric r (emptyGroup r)]
  | g :: gs =>
    if g.gkey = groupKey r then addRowToGroup metric r g :: gs
    else g :: updateGroups metric r gs

/-- Grouping loop over the rows (index.js lines 1071-1098). -/
def buildGroups (metric : String) (rows : List ReportRow) : List SummaryGroup :=
  rows.foldl (fun gs r => updateGroups metric r gs) []

/-- Paginated order-fetch loop (index.js lines 828-847, identical at
689-714): pages are 250-order blocks of the id-ordered matching orders
(cursor pagination by `since_id` over ids in increasing order), the loop
pushes each chunk, stops when a chunk is shorter than the page size, and
stops after pushing a chunk once the cumulative count exceeds 10000. -/
def fetchLoop (acc : List Order) (totalFetched : Nat) (remaining : List Order) : List Order :=
  let chunk := remaining.take 250
  let acc' := acc ++ chunk
  let total' := totalFetched + chunk.length
  if h : chunk.length < 250 then acc'
  else if total' > 10000 then acc'
  else fetchLoop acc' total' (remaining.drop 250)
termination_by remaining.length
decreasing_by
  simp only [List.length_drop]
  have h250 : (remaining.take 250).length = 250 := Nat.le_antisymm (by simp) (Nat.le_of_not_lt h)
  have : 250 ≤ remaining.length := by
    by_contra hlt
    have := List.length_take 250 remaining
    omega
  omega

/-- All orders collected by the report's fetch phase, given the id-ordered
list of matching orders upstream. -/
def fetchOrders (upstream : List Order) : List Order := fetchLoop [] 0 upstream

/-- Report detail built over the fetched orders, with the per-order fetch
outcomes supplied pointwise: processing continues with whatever the fetch
loop collected. -/
def reportDetailFromUpstream (upstream : List Order)
    (mf : Order → Except Unit (List Metafield))
    (ful : Order → Except Unit (List Fulfillment)) : List ReportRow :=
  (fetchOrders upstream).map (fun o => enrichOrder o (mf o) (ful o))

/-- POST /api/report request body; absent fields are `none`, and JS
falsiness of the empty string is applied where the handler tests a
field. -/
structure ReportBody where
  start : Option String
  endTime : Option String
  metric : Option String
  customerId : Option String

/-- JS falsiness of an optional string field. -/
def falsyStr (v : Option String) : Bool :=
  match v with
  | some s => s = ""
  | none => true

/-- Outcome of the report handler up to its first upstream call:
`badRequest` is an early `res.status(400)` return, `thrown` is an
exception raised while building the fetch parameters (the
`new Date(...).toISOString()` of an unparsable date, index.js lines
818-819), which the generic catch at line 1144 answers with status 500;
`fetchStarted` means validation passed and the first upstream orders call
is made. -/
inductive ReportPhase1 where
  | badRequest (msg : String)
  | thrown
  | fetchStarted (createdMin createdMax : Int) (customerId : Option String)
  deriving DecidableEq

/-- Validation prefix of the report handler (index.js lines 796-828),
parameterised by the platform's date parser (`parseDate s = none` models
an invalid date).  The handler checks only field presence and the metric
value; it never compares the two dates. -/
def reportPhase1 (parseDate : String → Option Int) (b : ReportBody) : ReportPhase1 :=
  if falsyStr b.start || falsyStr b.endTime || falsyStr b.metric then
    .badRequest "Missing required fields: start, end, and metric are required"
  else if ¬ (b.metric = some "billing" ∨ b.metric = some "actual") then
    .badRequest "Invalid metric. Must be billing or actual"
  else
    match parseDate (b.start.getD "") with
    | none => .thrown
    | some s =>
      match parseDate (b.endTime.getD "") with
      | none => .thrown
      | some e => .fetchStarted s e b.customerId

/-- Folding a conditional accumulation is adding the per-element
contributions. -/
theorem foldl_eq_add_sum {α : Type} (g : ℚ → α → ℚ) (f : α → ℚ)
    (hg : ∀ s x, g s x = s + f x) (l : List α) (init : ℚ) :
    l.foldl g init = init + (l.map f).sum := by
  induction l generalizing init with
  | nil => simp
  | cons x xs ih => rw [List.foldl_cons, hg, ih, List.map_cons, List.sum_cons]; ring

/-- Summing a guarded contribution is summing over the filtered list. -/
theorem sum_map_eq_sum_filter {α : Type} (p : α → Bool) (g : α → ℚ) (l : List α) :
    (l.map (fun x => if p x then g x else 0)).sum = ((l.filter p).map g).sum := by
  induction l with
  | nil => rfl
  | cons x xs ih => by_cases h : p x <;> simp [h, ih]

/-- Contribution of one fulfillment line item node (index.js lines
941-950), shared by the source fold and its specification reading. -/
def nodeContrib (node : FulfillmentLineItem) : ℚ :=
  let quantity := jsOr0 node.quantity
  let price := if quantity = 0 then 0 else jsOr0 node.origTotal / quantity
  if 0 < quantity ∧ 0 < price then price * quantity else 0

/-- Contribution of one fulfillment to the fulfillment-path line sum. -/
def fulfillContrib (f : Fulfillment) : ℚ :=
  if f.status = some "SUCCESS" then ((f.lineItems.getD []).map nodeContrib).sum else 0

/-- Contribution of one order line item to the fallback line sum. -/
def fallbackContrib (li : LineItem) : ℚ :=
  if li.fulfillment_status = some "removed" ∨ li.fulfillment_status = some "cancelled" ∨
      li.fulfillment_status = some "refunded" ∨ li.fulfillment_status = some "returned" then 0
  else if jsOr0 li.fulfillable_quantity < jsOr0 li.quantity then
    jsOr0 li.price * (jsOr0 li.quantity - jsOr0 li.fulfillable_quantity)
  else 0

/-- Skip condition of the fallback loop as a Boolean. -/
def skippedStatus (li : LineItem) : Bool :=
  li.fulfillment_status == some "removed" || li.fulfillment_status == some "cancelled" ||
    li.fulfillment_status == some "refunded" || li.fulfillment_status == some "returned"

/-- Modelled from the spec's words for claim C3 (fulfillment branch): for
every fulfillment whose status indicates success and every fulfillment
line item, derive the unit price as total monetary amount divided by
quantity and accumulate price times quantity exactly when both quantity
and derived price are positive. -/
def claimFulfillSum (fuls : List Fulfillment) : ℚ :=
  ((fuls.filter (fun f => f.status == some "SUCCESS")).map
    (fun f => ((f.lineItems.getD []).map nodeContrib).sum)).sum

/-- Modelled from the spec's words for claim C3 (fallback branch), as
stated: skip removed/cancelled/refunded/returned items and accumulate
price times (total quantity minus fulfillable quantity) for every other
item, with no further guard. -/
def claimFallbackSum (items : List LineItem) : ℚ :=
  ((items.filter (fun li => !skippedStatus li)).map
    (fun li => jsOr0 li.price * (jsOr0 li.quantity - jsOr0 li.fulfillable_quantity))).sum

/-- Amended reading of the fallback branch: an item contributes only when
its fulfillable quantity is strictly below its total quantity, so the
accumulated fulfilled quantity is always positive. -/
def amendedFallbackSum (items : List LineItem) : ℚ :=
  ((items.filter (fun li =>
      !skippedStatus li && decide (jsOr0 li.fulfillable_quantity < jsOr0 li.quantity))).map
    (fun li => jsOr0 li.price * (jsOr0 li.quantity - jsOr0 li.fulfillable_quantity))).sum

theorem lineItemFallbackSum_eq_sum (items : List LineItem) :
    lineItemFallbackSum items = (items.map fallbackContrib).sum := by
  unfold lineItemFallbackSum
  rw [foldl_eq_add_sum _ fallbackContrib, zero_add]
  intro s li
  unfold fallbackContrib
  by_cases h1 : li.fulfillment_status = some "removed" ∨ li.fulfillment_status = some "cancelled" ∨
      li.fulfillment_status = some "refunded" ∨ li.fulfillment_status = some "returned"
  · simp [h1]
  · by_cases h2 : jsOr0 li.fulfillable_quantity < jsOr0 li.quantity <;> simp [h1, h2]

theorem fulfillmentLineSum_eq_sum (fuls : List Fulfillment) :
    fulfillmentLineSum fuls = (fuls.map fulfillContrib).sum := by
  unfold fulfillmentLineSum
  rw [foldl_eq_add_sum _ fulfillContrib, zero_add]
  intro s f
  unfold fulfillContrib
  by_cases hs : f.status = some "SUCCESS"
  · simp only [hs, if_pos]
    match h : f.lineItems with
    | some nodes =>
      simp only [Option.getD_some]
      rw [foldl_eq_add_sum _ nodeContrib]
      intro s2 node
      unfold nodeContrib
      by_cases hq : jsOr0 node.quantity = 0
      · simp [hq]
      · simp only [hq, if_neg hq, ite_false]
        by_cases hc : 0 < jsOr0 node.quantity ∧ 0 < jsOr0 node.origTotal / jsOr0 node.quantity
        · simp only [if_pos hc]
        · simp [hc]
    | none => simp
  · simp [hs]

theorem fulfillmentLineSum_eq_claim (fuls : List Fulfillment) :
    fulfillmentLineSum fuls = claimFulfillSum fuls := by
  rw [fulfillmentLineSum_eq_sum]
  unfold claimFulfillSum
  rw [← sum_map_eq_sum_filter]
  congr 1
  apply List.map_congr_left
  intro f _
  unfold fulfillContrib
  by_cases hs : f.status = some "SUCCESS" <;> simp [hs]

theorem lineItemFallbackSum_eq_amended (items : List LineItem) :
    lineItemFallbackSum items = amendedFallbackSum items := by
  rw [lineItemFallbackSum_eq_sum]
  unfold amendedFallbackSum
  rw [← sum_map_eq_sum_filter]
  congr 1
  apply List.map_congr_left
  intro li _
  unfold fallbackContrib
  by_cases h1 : li.fulfillment_status = some "removed" ∨ li.fulfillment_status = some "cancelled" ∨
      li.fulfillment_status = some "refunded" ∨ li.fulfillment_status = some "returned"
  · have : skippedStatus li = true := by
      unfold skippedStatus
      rcases h1 with h | h | h | h <;> simp [h]
    simp [this, h1]
  · have : skippedStatus li = false := by
      unfold skippedStatus
      simp only [Bool.or_eq_false_iff, beq_eq_false_iff_ne, ne_eq]
      push_neg at h1
      exact ⟨⟨⟨h1.1, h1.2.1⟩, h1.2.2.1⟩, h1.2.2.2⟩
    by_cases h2 : jsOr0 li.fulfillable_quantity < jsOr0 li.quantity <;> simp [this, h1, h2]

/-- Sample order date, 2024-01. -/
def sampleDate : OrderDate := ⟨2024, 1, by decide, by decide⟩

/-- Line item whose fulfillable quantity exceeds its total quantity. -/
def overFulfillableItem : LineItem :=
  { name := some "Desk", price := some 10, quantity := some 1,
    fulfillment_status := none, fulfillable_quantity := some 3 }

/-- Line item fully fulfilled: one unit at price 10, nothing left to
fulfil. -/
def fulfilledItem : LineItem :=
  { name := some "Chair", price := some 10, quantity := some 1,
    fulfillment_status := none, fulfillable_quantity := some 0 }

/-- Sample customer. -/
def sampleCustomer : Customer := { id := 42, email := some "buyer@example.com" }

/-- Order carrying the over-fulfillable line item. -/
def overFulfillableOrder : Order :=
  { id := 1, name := some "#1001", created_at := sampleDate,
    customer := some sampleCustomer, line_items := [overFulfillableItem], total_price := 999 }

/-- Order carrying the fulfilled line item. -/
def fulfilledOrder : Order :=
  { id := 2, name := some "#1002", created_at := sampleDate,
    customer := some sampleCustomer, line_items := [fulfilledItem], total_price := 999 }

/-- C1: for every report row, on the normal enrichment path and on the
metadata-fetch-failure fallback path, the billing amount is exactly
line_sum plus additional_charges, and the row never depends on the
upstream order total. -/
theorem c1_billing_recomputed (o : Order) (mfRes : Except Unit (List Metafield))
    (fulRes : Except Unit (List Fulfillment)) :
    (enrichOrder o mfRes fulRes).billing_amount =
      jsAdd (enrichOrder o mfRes fulRes).line_sum (enrichOrder o mfRes fulRes).additional_charges
    ∧ ∀ t : ℚ, enrichOrder { o with total_price := t } mfRes fulRes = enrichOrder o mfRes fulRes := by
  constructor
  · cases mfRes <;> simp [enrichOrder, jsAdd]
  · intro t; cases mfRes <;> rfl

/-- C3 counterexample: the fallback branch skips a line item whose
fulfillable quantity (3) exceeds its total quantity (1), while the claim's
unguarded accumulation of price times (total minus fulfillable) would
contribute 10 * (1 - 3) = -20. -/
theorem c3_counterexample :
    (enrichOrder overFulfillableOrder (.ok []) (.error ())).line_sum = 0
    ∧ claimFallbackSum overFulfillableOrder.line_items = -20
    ∧ (0 : ℚ) ≠ -20 := by
  refine ⟨?_, ?_, by norm_num⟩
  · show lineItemFallbackSum overFulfillableOrder.line_items = 0
    simp [lineItemFallbackSum, overFulfillableOrder, overFulfillableItem, jsOr0]
  · simp [claimFallbackSum, skippedStatus, overFulfillableOrder, overFulfillableItem, jsOr0]
    norm_num

/-- C3 amended: when the fulfillment fetch succeeds, line_sum accumulates
price times quantity over the line items of successful fulfillments
exactly when both quantity and derived unit price are positive; when the
fulfillment fetch (or the metadata fetch) fails, line_sum is recomputed
from the order's own line items, skipping removed/cancelled/refunded/
returned items and accumulating price times (total minus fulfillable
quantity) only for items with fulfillable quantity strictly below total
quantity. -/
theorem c3_line_sum_amended (o : Order) (mfs : List Metafield) (fuls : List Fulfillment) :
    (enrichOrder o (.ok mfs) (.ok fuls)).line_sum = claimFulfillSum fuls
    ∧ (enrichOrder o (.ok mfs) (.error ())).line_sum = amendedFallbackSum o.line_items
    ∧ (enrichOrder o (.error ()) (.ok fuls)).line_sum = amendedFallbackSum o.line_items := by
  refine ⟨?_, ?_, ?_⟩
  · show fulfillmentLineSum fuls = _
    exact fulfillmentLineSum_eq_claim fuls
  · show lineItemFallbackSum o.line_items = _
    exact lineItemFallbackSum_eq_amended o.line_items
  · show lineItemFallbackSum o.line_items = _
    exact lineItemFallbackSum_eq_amended o.line_items

/-- C5: an order whose metadata fetch fails still yields a detail row,
with line_sum from the line-item fallback, additional_charges 0,
billing_amount equal to line_sum, actual_spend 0 and profit_margin 0; and
the detail list always has exactly one row per fetched order, so no order
is dropped by an enrichment error. -/
theorem c5_metadata_failure_row (o : Order) (fulRes : Except Unit (List Fulfillment))
    (inputs : List EnrichInput) :
    (enrichOrder o (.error ()) fulRes).line_sum = lineItemFallbackSum o.line_items
    ∧ (enrichOrder o (.error ()) fulRes).additional_charges = some 0
    ∧ (enrichOrder o (.error ()) fulRes).billing_amount = some (lineItemFallbackSum o.line_items)
    ∧ (enrichOrder o (.error ()) fulRes).actual_spend = some 0
    ∧ (enrichOrder o (.error ()) fulRes).profit_margin = some 0
    ∧ (enrichOrder o (.error ()) fulRes).order_id = o.id
    ∧ (reportDetail inputs).length = inputs.length := by
  refine ⟨rfl, rfl, rfl, rfl, rfl, rfl, by simp [reportDetail]⟩

/-- C6 counterexample: a metadata-fetch-failure row for an order with a
fulfilled 10-unit-price item has billing_amount 10 > 0 and actual_spend 0,
yet its profit_margin is 0, not (10 - 0) / 10 * 100 = 100. -/
theorem c6_counterexample :
    (enrichOrder fulfilledOrder (.error ()) (.ok [])).billing_amount = some 10
    ∧ (enrichOrder fulfilledOrder (.error ()) (.ok [])).actual_spend = some 0
    ∧ (enrichOrder fulfilledOrder (.error ()) (.ok [])).profit_margin = some 0
    ∧ ((10 : ℚ) - 0) / 10 * 100 = 100
    ∧ (some (0 : ℚ)) ≠ (some (100 : ℚ)) := by
  refine ⟨?_, rfl, rfl, by norm_num, by simp⟩
  show some (lineItemFallbackSum fulfilledOrder.line_items) = some 10
  simp [lineItemFallbackSum, fulfilledOrder, fulfilledItem, jsOr0]

/-- C6 amended: rows produced on the normal enrichment path satisfy the
claimed profit-margin formula (the stated formula when billing_amount is
a positive number, 0 when it is not positive), while rows produced on the
metadata-fetch-failure fallback path always have profit_margin 0, even
when their billing_amount is positive. -/
theorem c6_profit_margin_amended (o : Order) (mfs : List Metafield)
    (fulRes fulRes2 : Except Unit (List Fulfillment)) :
    (∀ b a : ℚ, (enrichOrder o (.ok mfs) fulRes).billing_amount = some b →
      (enrichOrder o (.ok mfs) fulRes).actual_spend = some a →
      0 < b → (enrichOrder o (.ok mfs) fulRes).profit_margin = some ((b - a) / b * 100))
    ∧ (∀ b : ℚ, (enrichOrder o (.ok mfs) fulRes).billing_amount = some b → b ≤ 0 →
      (enrichOrder o (.ok mfs) fulRes).profit_margin = some 0)
    ∧ (enrichOrder o (.error ()) fulRes2).profit_margin = some 0 := by
  refine ⟨?_, ?_, rfl⟩
  · intro b a hb ha hpos
    simp only [enrichOrder] at hb ha ⊢
    rw [hb, ha]
    simp [jsPos, jsSub, jsDiv, jsMul, hpos, hpos.ne']
  · intro b hb hnonpos
    simp only [enrichOrder] at hb ⊢
    rw [hb]
    simp [jsPos, not_lt.mpr hnonpos]

/-- Metafield value of a free-text string like "USD 25.5": not a number,
not JSON, one numeric substring. -/
def usdTextValue : MValue := { braceJson := none, toNumber := none, nums := [51/2] }

/-- Metafield value of a free-text string like "USD 25.5 fee 3": two
numeric substrings. -/
def twoNumsValue : MValue := { braceJson := none, toNumber := none, nums := [51/2, 3] }

/-- Metafield value of a digit-free string like "abc". -/
def noNumsValue : MValue := { braceJson := none, toNumber := none, nums := [] }

/-- Metafield value of the numeric string "5". -/
def fiveValue : MValue := { braceJson := none, toNumber := some 5, nums := [5] }

/-- Actual-total entry holding free text. -/
def actualTextEntry : Metafield :=
  { nspace := some "distacart", key := some "actual_total_checkout_price", value := usdTextValue }

/-- Additional-charges entry holding free text with two numbers. -/
def addTwoNumsEntry : Metafield :=
  { nspace := some "distacart", key := some "additional_charges", value := twoNumsValue }

/-- Additional-charges entry holding a digit-free string. -/
def addNoNumsEntry : Metafield :=
  { nspace := some "distacart", key := some "additional_charges", value := noNumsValue }

/-- Additional-charges entry holding the number 5. -/
def addFiveEntry : Metafield :=
  { nspace := some "distacart", key := some "additional_charges", value := fiveValue }

/-- C4 counterexample: for free text the claimed resolution extracts the
leading numeric substring, but `parseActualTotal` returns 0 for any
non-numeric text, and `parseAdditionalCharges` returns the sum of all
numeric substrings (25.5 + 3 = 28.5), not the leading one (25.5). -/
theorem c4_counterexample :
    parseActualTotal [actualTextEntry] = some 0
    ∧ claimValueResolution usdTextValue = some (51 / 2)
    ∧ parseAdditionalCharges [addTwoNumsEntry] = some (57 / 2)
    ∧ claimValueResolution twoNumsValue = some (51 / 2)
    ∧ some (0 : ℚ) ≠ some (51 / 2 : ℚ)
    ∧ some (57 / 2 : ℚ) ≠ some (51 / 2 : ℚ) := by
  refine ⟨rfl, rfl, ?_, rfl, by norm_num, by norm_num⟩
  show parseAdditionalCharges [addTwoNumsEntry] = some (57 / 2)
  simp [parseAdditionalCharges, matchesAdditional, addTwoNumsEntry, twoNumsValue]
  norm_num

theorem parseAdditional_cons_of_match (m : Metafield) (rest : List Metafield)
    (hm : matchesAdditional m = true) :
    parseAdditionalCharges (m :: rest) =
      (match resolveAdditionalValue m.value with
       | some j => j
       | none => parseAdditionalCharges rest) := by
  simp only [parseAdditionalCharges, hm, if_true]
  unfold resolveAdditionalValue
  rcases hb : m.value.braceJson with _ | a
  · rcases ht : m.value.toNumber with _ | n
    · rcases hn : m.value.nums with _ | ⟨q, qs⟩ <;> simp [hb, ht, hn]
    · simp [hb, ht]
  · simp [hb]

theorem parseActual_cons_of_match (m : Metafield) (rest : List Metafield)
    (hm : matchesActual m = true) :
    parseActualTotal (m :: rest) = resolveActualValue m.value := by
  simp only [parseActualTotal, hm, if_true]
  unfold resolveActualValue
  rcases hb : m.value.braceJson with _ | a
  · rcases ht : m.value.toNumber with _ | n <;> simp [hb, ht]
  · simp [hb]

/-- C4 amended: a matching entry's value is resolved by trying the JSON
object's truthy amount field first, then the raw number, and otherwise —
for additional_charges only — the sum of all numeric substrings of the
free text; a matching additional_charges entry with none of these defers
to the remaining entries, and a matching actual_total entry without a
number resolves to 0 (its free text is never mined). -/
theorem c4_value_resolution_amended (m : Metafield) (rest : List Metafield) :
    (matchesAdditional m = true →
      parseAdditionalCharges (m :: rest) =
        (match resolveAdditionalValue m.value with
         | some j => j
         | none => parseAdditionalCharges rest))
    ∧ (matchesActual m = true →
      parseActualTotal (m :: rest) = resolveActualValue m.value) :=
  ⟨parseAdditional_cons_of_match m rest, parseActual_cons_of_match m rest⟩

/-- C4 amended, instantiated: a numeric additional_charges entry resolves
to its number, and a free-text actual_total entry resolves to 0. -/
theorem c4_value_resolution_amended_witness :
    parseAdditionalCharges [addFiveEntry] = some 5
    ∧ parseActualTotal [actualTextEntry] = some 0 := by
  constructor
  · have h := (c4_value_resolution_amended addFiveEntry []).1 (by decide)
    simpa [resolveAdditionalValue, addFiveEntry, fiveValue] using h
  · have h := (c4_value_resolution_amended actualTextEntry []).2 (by decide)
    simpa [resolveActualValue, actualTextEntry, usdTextValue] using h

/-- C10 counterexample: the first matching additional_charges entry (a
digit-free string) yields no value, and a later matching entry decides
the result, so the first matching entry does not determine it: with the
later entry the parse returns 5, without it 0. -/
theorem c10_counterexample :
    matchesAdditional addNoNumsEntry = true
    ∧ parseAdditionalCharges [addNoNumsEntry] = some 0
    ∧ parseAdditionalCharges [addNoNumsEntry, addFiveEntry] = some 5
    ∧ some (5 : ℚ) ≠ some (0 : ℚ) := by
  refine ⟨by decide, rfl, rfl, by simp⟩

/-- C10 amended: `parseActualTotal` is decided by the first matching
entry (and is 0 when none matches), while `parseAdditionalCharges` is
decided by the first matching entry that yields a value — a truthy JSON
amount, a numeric value, or at least one numeric substring — matching
entries that yield nothing being skipped, with 0 when no entry yields. -/
theorem c10_first_match_amended (mfs : List Metafield) :
    parseActualTotal mfs =
      (match mfs.find? matchesActual with
       | some m => resolveActualValue m.value
       | none => some 0)
    ∧ parseAdditionalCharges mfs =
      (match (mfs.filterMap
          (fun m => if matchesAdditional m then resolveAdditionalValue m.value else none)).head? with
       | some j => j
       | none => some 0) := by
  induction mfs with
  | nil => exact ⟨rfl, rfl⟩
  | cons m rest ih =>
    constructor
    · by_cases hm : matchesActual m
      · rw [List.find?_cons_of_pos _ hm]
        exact parseActual_cons_of_match m rest hm
      · rw [List.find?_cons_of_neg _ (by simp [hm])]
        simp only [parseActualTotal, hm]
        simpa using ih.1
    · by_cases hm : matchesAdditional m
      · rw [List.filterMap_cons]
        simp only [hm, if_true]
        rw [parseAdditional_cons_of_match m rest hm]
        rcases hr : resolveAdditionalValue m.value with _ | j
        · simp only [hr]
          simpa using ih.2
        · simp [hr]
      · rw [List.filterMap_cons]
        simp only [hm, if_false]
        simp only [parseAdditionalCharges, hm]
        simpa using ih.2

/-- Concrete date parser for witnesses: recognises exactly two ISO
timestamps. -/
def sampleParseDate : String → Option Int := fun s =>
  if s = "2024-01-01T00:00:00.000Z" then some 50
  else if s = "2024-02-01T00:00:00.000Z" then some 100
  else none

/-- Report body whose start is after its end. -/
def swappedRangeBody : ReportBody :=
  { start := some "2024-02-01T00:00:00.000Z", endTime := some "2024-01-01T00:00:00.000Z",
    metric := some "billing", customerId := none }

/-- Report body whose start is not a date. -/
def invalidDateBody : ReportBody :=
  { start := some "not-a-date", endTime := some "2024-01-01T00:00:00.000Z",
    metric := some "billing", customerId := none }

/-- C2 counterexample: a request with valid fields but start after end is
not rejected at all — the handler proceeds to the upstream fetch — and a
request with an unparsable start date raises during parameter
construction, which the generic catch answers with status 500, not
400. -/
theorem c2_counterexample :
    reportPhase1 sampleParseDate swappedRangeBody = .fetchStarted 100 50 none
    ∧ (50 : Int) < 100
    ∧ reportPhase1 sampleParseDate invalidDateBody = .thrown
    ∧ ∀ msg : String, (ReportPhase1.thrown ≠ .badRequest msg) := by
  refine ⟨rfl, by norm_num, rfl, fun msg => by simp⟩

/-- C2 amended: a missing start, end or metric field, or a metric outside
billing/actual, yields HTTP 400 before any upstream call; an unparsable
start or end instead raises before any upstream call and is answered
with HTTP 500; and start at or after end is not rejected — the fetch
proceeds with the given bounds. -/
theorem c2_validation_amended (parse : String → Option Int) (b : ReportBody) :
    ((falsyStr b.start || falsyStr b.endTime || falsyStr b.metric) = true →
      reportPhase1 parse b = .badRequest "Missing required fields: start, end, and metric are required")
    ∧ ((falsyStr b.start || falsyStr b.endTime || falsyStr b.metric) = false →
      ¬ (b.metric = some "billing" ∨ b.metric = some "actual") →
      reportPhase1 parse b = .badRequest "Invalid metric. Must be billing or actual")
    ∧ ((falsyStr b.start || falsyStr b.endTime || falsyStr b.metric) = false →
      (b.metric = some "billing" ∨ b.metric = some "actual") →
      ((parse (b.start.getD "") = none ∨ parse (b.endTime.getD "") = none) →
        reportPhase1 parse b = .thrown)
      ∧ (∀ s e : Int, parse (b.start.getD "") = some s → parse (b.endTime.getD "") = some e →
        reportPhase1 parse b = .fetchStarted s e b.customerId)) := by
  refine ⟨?_, ?_, ?_⟩
  · intro h
    simp [reportPhase1, h]
  · intro h hm
    simp [reportPhase1, h, hm]
  · intro h hm
    constructor
    · rintro (hd | hd)
      · simp [reportPhase1, h, hm, hd]
      · cases hs : parse (b.start.getD "") <;> simp [reportPhase1, h, hm, hd, hs]
    · intro s e hs he
      simp [reportPhase1, h, hm, hs, he]

/-- C2 amended, instantiated: a body with no start field is answered with
the missing-fields 400. -/
theorem c2_validation_amended_witness :
    reportPhase1 sampleParseDate
      { start := none, endTime := some "2024-01-01T00:00:00.000Z",
        metric := some "billing", customerId := none } =
      .badRequest "Missing required fields: start, end, and metric are required" :=
  (c2_validation_amended sampleParseDate _).1 (by decide)

theorem digitChar10_inj_lt : ∀ a < 10, ∀ b < 10, digitChar10 a = digitChar10 b → a = b := by
  decide

theorem digitChar10_inj_mod {x y : Nat} (h : digitChar10 x = digitChar10 y) : x % 10 = y % 10 := by
  have hx : digitChar10 (x % 10) = digitChar10 x := by
    unfold digitChar10; congr 1; omega
  have hy : digitChar10 (y % 10) = digitChar10 y := by
    unfold digitChar10; congr 1; omega
  exact digitChar10_inj_lt (x % 10) (by omega) (y % 10) (by omega) (by rw [hx, hy, h])

theorem monthKey_inj {d1 d2 : OrderDate} (h : monthKey d1 = monthKey d2) :
    d1.year = d2.year ∧ d1.month = d2.month := by
  have h1 := d1.hy
  have h2 := d2.hy
  have h3 := d1.hm
  have h4 := d2.hm
  unfold monthKey at h
  have hdata := congrArg String.data h
  simp only [List.cons.injEq, and_true] at hdata
  obtain ⟨e1, e2, e3, e4, _, e6, e7⟩ := hdata
  have g1 := digitChar10_inj_mod e1
  have g2 := digitChar10_inj_mod e2
  have g3 := digitChar10_inj_mod e3
  have g4 := digitChar10_inj_mod e4
  have g6 := digitChar10_inj_mod e6
  have g7 := digitChar10_inj_mod e7
  constructor <;> omega

theorem monthKey_data_length (d : OrderDate) : (monthKey d).data.length = 7 := rfl

theorem string_pipe_month_inj {a b : String} {d1 d2 : OrderDate}
    (h : a ++ "|" ++ monthKey d1 = b ++ "|" ++ monthKey d2) :
    a = b ∧ monthKey d1 = monthKey d2 := by
  have hdata := congrArg String.data h
  simp only [String.data_append] at hdata
  have hlen : (monthKey d1).data.length = (monthKey d2).data.length := by
    rw [monthKey_data_length, monthKey_data_length]
  have hsplit := List.append_inj' hdata hlen
  obtain ⟨hab, hm⟩ := hsplit
  have hab2 : a.data = b.data := (List.append_inj' hab rfl).1
  exact ⟨congrArg String.mk hab2, congrArg String.mk hm⟩

theorem groupKey_inj (r1 r2 : ReportRow) :
    groupKey r1 = groupKey r2 ↔
      (customerKey r1 = customerKey r2
        ∧ r1.order_date.year = r2.order_date.year
        ∧ r1.order_date.month = r2.order_date.month) := by
  constructor
  · intro h
    unfold groupKey at h
    obtain ⟨hc, hm⟩ := string_pipe_month_inj h
    obtain ⟨hy, hmo⟩ := monthKey_inj hm
    exact ⟨hc, hy, hmo⟩
  · rintro ⟨hc, hy, hm⟩
    unfold groupKey monthKey
    rw [hc, hy, hm]

/-- Sum of the selected metric over the rows assigned to a group key. -/
def sumMetricKey (metric : String) (rows : List ReportRow) (k : String) : ℚ :=
  ((rows.filter (fun r => groupKey r == k)).map (rowMetric metric)).sum

theorem gkey_addRowToGroup (metric : String) (r : ReportRow) (g : SummaryGroup) :
    (addRowToGroup metric r g).gkey = g.gkey := rfl

theorem gkey_emptyGroup (r : ReportRow) : (emptyGroup r).gkey = groupKey r := rfl

theorem sumMetricKey_append_one (metric : String) (past : List ReportRow) (r : ReportRow)
    (k : String) :
    sumMetricKey metric (past ++ [r]) k =
      sumMetricKey metric past k + (if groupKey r = k then rowMetric metric r else 0) := by
  unfold sumMetricKey
  rw [List.filter_append]
  by_cases h : groupKey r = k
  · simp [h]
  · simp [h]

theorem sumMetricKey_eq_zero (metric : String) (past : List ReportRow) (k : String)
    (h : ∀ x ∈ past, groupKey x ≠ k) : sumMetricKey metric past k = 0 := by
  unfold sumMetricKey
  have : past.filter (fun r => groupKey r == k) = [] := by
    rw [List.filter_eq_nil_iff]
    intro a ha
    simpa using h a ha
  rw [this]
  rfl

theorem updateGroups_of_not_mem (metric : String) (r : ReportRow) :
    ∀ gs : List SummaryGroup, groupKey r ∉ gs.map SummaryGroup.gkey →
      updateGroups metric r gs = gs ++ [addRowToGroup metric r (emptyGroup r)]
  | [], _ => rfl
  | g :: gs, h => by
    simp only [List.map_cons, List.mem_cons, not_or] at h
    unfold updateGroups
    rw [if_neg (fun he => h.1 he.symm), updateGroups_of_not_mem metric r gs h.2]
    rfl

theorem updateGroups_of_mem (metric : String) (r : ReportRow) :
    ∀ gs : List SummaryGroup, (gs.map SummaryGroup.gkey).Nodup →
      groupKey r ∈ gs.map SummaryGroup.gkey →
      updateGroups metric r gs =
        gs.map (fun g => if g.gkey = groupKey r then addRowToGroup metric r g else g)
  | [], _, hmem => by simp at hmem
  | g :: gs, hnd, hmem => by
    simp only [List.map_cons, List.nodup_cons] at hnd
    by_cases hg : g.gkey = groupKey r
    · unfold updateGroups
      rw [if_pos hg]
      have : gs.map (fun g' => if g'.gkey = groupKey r then addRowToGroup metric r g' else g') = gs := by
        conv_rhs => rw [← List.map_id gs]
        apply List.map_congr_left
        intro g' hg'
        rw [if_neg]
        · rfl
        · intro he
          exact hnd.1 (by rw [hg, ← he]; exact List.mem_map_of_mem _ hg')
      simp [hg, this]
    · unfold updateGroups
      rw [if_neg hg]
      have hmem' : groupKey r ∈ gs.map SummaryGroup.gkey := by
        simp only [List.map_cons, List.mem_cons] at hmem
        rcases hmem with he | hm
        · exact absurd he.symm hg
        · exact hm
      rw [updateGroups_of_mem metric r gs hnd.2 hmem']
      simp [hg]

/-- Invariant of the grouping loop: the stored group keys are duplicate
free, each group's amount is the metric sum over the already-processed
rows with its key, and every processed row's key is present. -/
def GroupsInv (metric : String) (past : List ReportRow) (gs : List SummaryGroup) : Prop :=
  (gs.map SummaryGroup.gkey).Nodup
  ∧ (∀ g ∈ gs, g.amount = sumMetricKey metric past g.gkey)
  ∧ (∀ x ∈ past, groupKey x ∈ gs.map SummaryGroup.gkey)

theorem groupsInv_step (metric : String) (past : List ReportRow) (gs : List SummaryGroup)
    (r : ReportRow) (h : GroupsInv metric past gs) :
    GroupsInv metric (past ++ [r]) (updateGroups metric r gs) := by
  obtain ⟨hnd, hamt, hcov⟩ := h
  by_cases hmem : groupKey r ∈ gs.map SummaryGroup.gkey
  · rw [updateGroups_of_mem metric r gs hnd hmem]
    refine ⟨?_, ?_, ?_⟩
    · have : (gs.map (fun g => if g.gkey = groupKey r then addRowToGroup metric r g else g)).map
          SummaryGroup.gkey = gs.map SummaryGroup.gkey := by
        rw [List.map_map]
        apply List.map_congr_left
        intro g _
        by_cases hg : g.gkey = groupKey r <;> simp [hg, gkey_addRowToGroup]
      rw [this]
      exact hnd
    · intro g' hg'
      rw [List.mem_map] at hg'
      obtain ⟨g, hg, heq⟩ := hg'
      by_cases hk : g.gkey = groupKey r
      · rw [if_pos hk] at heq
        subst heq
        rw [gkey_addRowToGroup, sumMetricKey_append_one, hk, if_pos rfl]
        simp [addRowToGroup, hamt g hg, hk]
      · rw [if_neg hk] at heq
        subst heq
        rw [sumMetricKey_append_one, if_neg (fun he => hk he.symm), add_zero]
        exact hamt g hg
    · intro x hx
      have hkeys : (gs.map (fun g => if g.gkey = groupKey r then addRowToGroup metric r g else g)).map
          SummaryGroup.gkey = gs.map SummaryGroup.gkey := by
        rw [List.map_map]
        apply List.map_congr_left
        intro g _
        by_cases hg : g.gkey = groupKey r <;> simp [hg, gkey_addRowToGroup]
      rw [hkeys]
      rcases List.mem_append.mp hx with hx | hx
      · exact hcov x hx
      · rw [List.mem_singleton.mp hx]
        exact hmem
  · rw [updateGroups_of_not_mem metric r gs hmem]
    have hzero : sumMetricKey metric past (groupKey r) = 0 := by
      apply sumMetricKey_eq_zero
      intro x hx he
      exact hmem (he ▸ hcov x hx)
    refine ⟨?_, ?_, ?_⟩
    · rw [List.map_append]
      simp only [List.map_cons, List.map_nil]
      rw [List.nodup_append]
      refine ⟨hnd, List.nodup_singleton _, ?_⟩
      intro a ha hb
      simp only [gkey_addRowToGroup, gkey_emptyGroup, List.mem_singleton] at hb
      exact hmem (hb ▸ ha)
    · intro g' hg'
      rcases List.mem_append.mp hg' with hg | hg
      · rw [sumMetricKey_append_one, if_neg, add_zero]
        · exact hamt g' hg
        · intro he
          exact hmem (he ▸ List.mem_map_of_mem _ hg)
      · rw [List.mem_singleton.mp hg]
        rw [gkey_addRowToGroup, gkey_emptyGroup, sumMetricKey_append_one, if_pos rfl, hzero, zero_add]
        simp [addRowToGroup, emptyGroup]
    · intro x hx
      rw [List.map_append]
      simp only [List.map_cons, List.map_nil, gkey_addRowToGroup, gkey_emptyGroup]
      rcases List.mem_append.mp hx with hx | hx
      · exact List.mem_append_left _ (hcov x hx)
      · rw [List.mem_singleton.mp hx]
        exact List.mem_append_right _ (List.mem_singleton_self _)

theorem groupsInv_foldl (metric : String) :
    ∀ (rows past : List ReportRow) (gs : List SummaryGroup), GroupsInv metric past gs →
      GroupsInv metric (past ++ rows) (rows.foldl (fun a r => updateGroups metric r a) gs)
  | [], past, gs, h => by simpa using h
  | r :: rows, past, gs, h => by
    have hstep := groupsInv_step metric past gs r h
    have := groupsInv_foldl metric rows (past ++ [r]) (updateGroups metric r gs) hstep
    simpa [List.append_assoc] using this

theorem buildGroups_inv (metric : String) (rows : List ReportRow) :
    GroupsInv metric rows (buildGroups metric rows) := by
  have h0 : GroupsInv metric [] [] := ⟨List.nodup_nil, by simp, by simp⟩
  have := groupsInv_foldl metric rows [] [] h0
  simpa [buildGroups] using this

/-- Row used to exercise the grouping theorems on concrete data. -/
def sampleRow : ReportRow :=
  { order_id := 7, order_number := some "1001", order_date := sampleDate,
    customer_id := some 42, customer_name := "Customer #42",
    customer_email := some "buyer@example.com",
    line_sum := 100, additional_charges := some 10, billing_amount := some 110,
    actual_spend := some 50, profit_margin := some (600 / 11) }

/-- The single group produced by grouping the sample row. -/
def sampleGroup : SummaryGroup :=
  { customer := customerKey sampleRow, month := monthKey sampleRow.order_date,
    orders := 1, amount := 110, order_numbers := ["1001"],
    total_billing := 110, total_actual := 50 }

/-- C7: every summary group's amount field is the sum, over exactly the
rows whose group key matches that group, of the billing amount when the
requested metric is billing and of the actual spend when it is actual
(the selection and null coercion being those of `rowMetric`). -/
theorem c7_group_amount (metric : String) (rows : List ReportRow) :
    ∀ g ∈ buildGroups metric rows,
      g.amount = ((rows.filter (fun r => groupKey r == g.gkey)).map (rowMetric metric)).sum := by
  intro g hg
  exact (buildGroups_inv metric rows).2.1 g hg

/-- C7, instantiated on the sample row. -/
theorem c7_group_amount_witness :
    sampleGroup ∈ buildGroups "billing" [sampleRow]
    ∧ sampleGroup.amount =
      (([sampleRow].filter (fun r => groupKey r == sampleGroup.gkey)).map (rowMetric "billing")).sum := by
  have hb : buildGroups "billing" [sampleRow] = [sampleGroup] := by
    simp only [buildGroups, List.foldl_cons, List.foldl_nil, updateGroups, addRowToGroup,
      emptyGroup, sampleGroup]
    norm_num [rowMetric, jsOr0, insertOrderNumber, sampleRow]
    refine ⟨?_, by decide⟩
    rw [if_neg (by decide)]
    rfl
  have hmem : sampleGroup ∈ buildGroups "billing" [sampleRow] := by
    rw [hb]; exact List.mem_singleton_self _
  exact ⟨hmem, c7_group_amount "billing" [sampleRow] sampleGroup hmem⟩

theorem enrichOrder_email_ne_empty (o : Order) (mfRes : Except Unit (List Metafield))
    (fulRes : Except Unit (List Fulfillment)) :
    (enrichOrder o mfRes fulRes).customer_email ≠ some ""
    ∧ (enrichOrder o mfRes fulRes).customer_id ≠ some 0 := by
  cases mfRes <;>
    · refine ⟨?_, ?_⟩
      · show (match o.customer with
          | some c => match c.email with
            | some e => if e = "" then none else some e
            | none => none
          | none => none) ≠ some ""
        rcases hoc : o.customer with _ | c
        · simp
        · rcases hce : c.email with _ | e
          · simp [hce]
          · by_cases he : e = "" <;> simp [hce, he]
      · show (match o.customer with
          | some c => if c.id = 0 then none else some c.id
          | none => none) ≠ some 0
        rcases hoc : o.customer with _ | c
        · simp
        · by_cases hi : c.id = 0 <;> simp [hi]

theorem customerKey_eq_claim (r : ReportRow) (he : r.customer_email ≠ some "")
    (hi : r.customer_id ≠ some 0) : customerKey r = claimCustomerKey r := by
  unfold customerKey claimCustomerKey customerKey.customerIdKey
  rcases hem : r.customer_email with _ | e
  · simp only [hem]
    rcases hid : r.customer_id with _ | i
    · simp [hid]
    · have hne : i ≠ 0 := fun h0 => hi (by rw [hid, h0])
      simp [hid, hne]
  · have hne : e ≠ "" := fun h0 => he (by rw [hem, h0])
    simp [hem, hne]

/-- C8: grouping of report rows is keyed by (customer key, UTC year-month
of the order date): the group keys of one report are duplicate free,
every row has a group with its key, and for rows of one report two rows
share a group key exactly when they agree both on the claimed customer
key (email if present, else id as text, else "unknown") and on the UTC
year and month of their order dates. -/
theorem c8_grouping_stable (metric : String) (inputs : List EnrichInput) :
    ((buildGroups metric (reportDetail inputs)).map SummaryGroup.gkey).Nodup
    ∧ (∀ r ∈ reportDetail inputs,
        ∃ g ∈ buildGroups metric (reportDetail inputs), g.gkey = groupKey r)
    ∧ (∀ r1 ∈ reportDetail inputs, ∀ r2 ∈ reportDetail inputs,
        (groupKey r1 = groupKey r2 ↔
          (claimCustomerKey r1 = claimCustomerKey r2
            ∧ r1.order_date.year = r2.order_date.year
            ∧ r1.order_date.month = r2.order_date.month))) := by
  obtain ⟨hnd, _, hcov⟩ := buildGroups_inv metric (reportDetail inputs)
  refine ⟨hnd, ?_, ?_⟩
  · intro r hr
    have := hcov r hr
    rw [List.mem_map] at this
    obtain ⟨g, hg, heq⟩ := this
    exact ⟨g, hg, heq⟩
  · intro r1 hr1 r2 hr2
    have norm : ∀ r ∈ reportDetail inputs, customerKey r = claimCustomerKey r := by
      intro r hr
      rw [reportDetail, List.mem_map] at hr
      obtain ⟨i, _, heq⟩ := hr
      obtain ⟨he, hi⟩ := enrichOrder_email_ne_empty i.ord i.metafieldsResult i.fulfillmentsResult
      exact customerKey_eq_claim r (heq ▸ he) (heq ▸ hi)
    rw [groupKey_inj, norm r1 hr1, norm r2 hr2]

/-- C8, instantiated: the single enriched sample order has a group with
its key. -/
theorem c8_grouping_stable_witness :
    ∃ g ∈ buildGroups "billing" (reportDetail [⟨fulfilledOrder, .ok [], .ok []⟩]),
      g.gkey = groupKey (enrichOrder fulfilledOrder (.ok []) (.ok [])) := by
  have h := (c8_grouping_stable "billing" [⟨fulfilledOrder, .ok [], .ok []⟩]).2.1
  exact h _ (by simp [reportDetail])

theorem fetchLoop_eq (acc : List Order) (total : Nat) (remaining : List Order)
    (htot : total ≤ 10000) :
    fetchLoop acc total remaining = acc ++ remaining.take (250 * ((10000 - total) / 250 + 1)) := by
  rw [fetchLoop]
  by_cases hlen : (remaining.take 250).length < 250
  · rw [dif_pos hlen]
    have hr : remaining.length < 250 := by
      have := List.length_take 250 remaining
      omega
    have h1 : remaining.take 250 = remaining := List.take_of_length_le (by omega)
    have h2 : remaining.take (250 * ((10000 - total) / 250 + 1)) = remaining := by
      apply List.take_of_length_le
      have : 250 ≤ 250 * ((10000 - total) / 250 + 1) := by
        have : 1 ≤ (10000 - total) / 250 + 1 := by omega
        omega
      omega
    rw [h1, h2]
  · rw [dif_neg hlen]
    have hc : (remaining.take 250).length = 250 := by
      have := List.length_take 250 remaining
      omega
    by_cases hcap : total + (remaining.take 250).length > 10000
    · rw [if_pos hcap]
      have hT : 250 * ((10000 - total) / 250 + 1) = 250 := by
        have : (10000 - total) / 250 = 0 := by omega
        omega
      rw [hT]
    · rw [if_neg hcap]
      have htot' : total + (remaining.take 250).length ≤ 10000 := by omega
      rw [hc] at htot' ⊢
      rw [fetchLoop_eq (acc ++ remaining.take 250) (total + 250) (remaining.drop 250) htot']
      rw [List.append_assoc]
      congr 1
      have hsplit : 250 * ((10000 - total) / 250 + 1) =
          250 + 250 * ((10000 - (total + 250)) / 250 + 1) := by
        have : (10000 - total) / 250 = (10000 - (total + 250)) / 250 + 1 := by omega
        omega
      rw [hsplit, List.take_add]
termination_by remaining.length
decreasing_by
  have := List.length_take 250 remaining
  simp only [List.length_drop]
  omega

theorem fetchOrders_eq (u : List Order) : fetchOrders u = u.take 10250 := by
  unfold fetchOrders
  rw [fetchLoop_eq [] 0 u (by norm_num)]
  norm_num

/-- C9: the fetch loop terminates with the first 10250 matching orders —
all N of them when N is at most 10250 (the loop ends at the first short
page), and more than 10000 of them when more than 10000 exist (it stops
with the page that pushes the cumulative count past 10000) — and the
enrichment phase then processes exactly the collected orders instead of
failing. -/
theorem c9_pagination (u : List Order) (mf : Order → Except Unit (List Metafield))
    (ful : Order → Except Unit (List Fulfillment)) :
    fetchOrders u = u.take 10250
    ∧ (u.length ≤ 10250 → fetchOrders u = u)
    ∧ (10000 < u.length → 10000 < (fetchOrders u).length ∧ (fetchOrders u).length ≤ 10250)
    ∧ (reportDetailFromUpstream u mf ful).length = min 10250 u.length := by
  have h := fetchOrders_eq u
  refine ⟨h, ?_, ?_, ?_⟩
  · intro hle
    rw [h]
    exact List.take_of_length_le hle
  · intro hgt
    rw [h, List.length_take]
    omega
  · rw [reportDetailFromUpstream, List.length_map, h, List.length_take]

/-- C9, instantiated: one available order is fetched whole, and with
10251 available orders the loop stops having collected more than
10000. -/
theorem c9_pagination_witness :
    fetchOrders [fulfilledOrder] = [fulfilledOrder]
    ∧ 10000 < (fetchOrders (List.replicate 10251 fulfilledOrder)).length := by
  constructor
  · exact (c9_pagination [fulfilledOrder] (fun _ => .ok []) (fun _ => .ok [])).2.1
      (by rw [List.length_singleton]; norm_num)
  · exact ((c9_pagination (List.replicate 10251 fulfilledOrder)
      (fun _ => .ok []) (fun _ => .ok [])).2.2.1 (by rw [List.length_replicate]; norm_num)).1

/-- C6 amended, instantiated: a normal-path row with billing 10 and actual
spend 0 has profit margin (10 - 0) / 10 * 100. -/
theorem c6_profit_margin_amended_witness :
    (enrichOrder fulfilledOrder (.ok []) (.error ())).profit_margin =
      some ((10 - 0) / 10 * 100) := by
  have hls : lineItemFallbackSum fulfilledOrder.line_items = 10 := by
    simp [lineItemFallbackSum, fulfilledOrder, fulfilledItem, jsOr0]
  have hb : (enrichOrder fulfilledOrder (.ok []) (.error ())).billing_amount = some 10 := by
    show jsAdd (lineItemFallbackSum fulfilledOrder.line_items) (parseAdditionalCharges []) = some 10
    rw [hls]
    simp [jsAdd, parseAdditionalCharges]
  have ha : (enrichOrder fulfilledOrder (.ok []) (.error ())).actual_spend = some 0 := rfl
  exact (c6_profit_margin_amended fulfilledOrder [] (.error ()) (.ok [])).1 10 0 hb ha (by norm_num)
